import Mathlib

/-!
Verification of the cbor-js CBOR codec against its natural-language
specification.

The development shallowly embeds the TypeScript sources:

* `src/bigint.ts` — the arbitrary-precision integer byte codec
  (`ilog256`, `bytesToUnsignedBigInt`, `unsignedBigIntToBytes`);
* `src/encoder.ts` — the `CborEncoder` class (`encode`, `encodeInteger`,
  `encodeNegativeInteger`, `encodeUnsignedInteger`, `encodeFloat`,
  `encodeByteString`, `encodeString`, `encodeArray`, big-integer paths);
* `src/decoder.ts` — the `CborDecoder` pull parser (`next`, `item`,
  `decodeWithTag`, `sequence`, the `take`/`pairs` iterator helpers) and
  `src/index.ts`'s public `decode` entry point.

Machine integers and JavaScript numbers holding integers are modelled as
`Int`/`Nat`; byte buffers as `List Nat` whose elements are meant to lie in
`[0, 255]`; fallible code returns `Except`.  The decoder's mutual recursion
is expressed with an explicit fuel parameter; fuel exhaustion is a
distinguished error that is never conflated with any behaviour of the
JavaScript code, and the public entry point supplies fuel that dominates the
call depth of every input considered here.
-/

set_option maxRecDepth 10000

namespace CborJs

/-- Errors raised by the encoder (`throw`/`assert` sites in
`src/encoder.ts` and `src/bigint.ts`). -/
inductive EncErr where
/-- The message for `assert(n >= ZERO)` in `unsignedBigIntToBytes`. -/
| assertUnsigned
/-- A failed generic `assert(...)` call. -/
| assertFailed
/-- The literal `throw new Error("todo")` ending `encodeByteString`. -/
| todoByteString
/-- The long-string error thrown at the end of `encodeString`. -/
| stringTooLong
/-- The `throw new Error("Not implemented yet")` tail of `encode`. -/
| notImplementedYet
/-- Marker for a code path whose JavaScript behaviour depends on IEEE-754
float values and is not modelled (never reached by any claim). -/
| unmodeled
deriving DecidableEq

/-! ## Arbitrary-precision integer byte codec (`src/bigint.ts`) -/

/-- The `ilog256` helper: counts how many times the input can be shifted
right by eight bits before reaching zero. -/
def ilog256 (bu : Nat) : Nat :=
if h : bu = 0 then 0 else ilog256 (bu >>> 8) + 1
decreasing_by
simp only [Nat.shiftRight_eq_div_pow]
exact Nat.div_lt_self (Nat.pos_of_ne_zero h) (by norm_num)

/-- The `bytesToUnsignedBigInt` fold: big-endian base-256 accumulation via
`n = (n << 8) | byte`. -/
def bytesToUnsignedBigInt (bytes : List Nat) : Nat :=
bytes.foldl (fun n b => (n <<< 8) ||| b) 0

/-- Big-endian fill of `k` bytes from `n`, written exactly as the
`unsignedBigIntToBytes` loop does it (lowest byte `n & 0xff` at the highest
index, then `n >>= 8`).  The same function models a big-endian
`DataView.setUintN` write of width `k`. -/
def beBytes : Nat → Nat → List Nat
| 0, _ => []
| k + 1, n => beBytes k (n >>> 8) ++ [n &&& 255]

/-- The `unsignedBigIntToBytes` function: asserts the input is not negative,
computes the minimal byte length with `ilog256`, then fills big-endian. -/
def unsignedBigIntToBytes (n : Int) : Except EncErr (List Nat) :=
if n < 0 then .error .assertUnsigned
else .ok (beBytes (ilog256 n.toNat) n.toNat)

/-! ### Facts about the integer byte codec -/

theorem ilog256_zero : ilog256 0 = 0 := by
simp [ilog256]

theorem ilog256_of_ne_zero {n : Nat} (h : n ≠ 0) :
  ilog256 n = ilog256 (n / 256) + 1 := by
rw [ilog256]
simp [h, Nat.shiftRight_eq_div_pow]

theorem lt_pow_ilog256 (n : Nat) : n < 256 ^ ilog256 n := by
induction n using Nat.strong_induction_on with
| _ n ih =>
  rcases eq_or_ne n 0 with rfl | h
  · simp [ilog256_zero]
  · rw [ilog256_of_ne_zero h]
    have hdiv : n / 256 < n := Nat.div_lt_self (Nat.pos_of_ne_zero h) (by norm_num)
    have hlt := ih (n / 256) hdiv
    have h1 : n / 256 + 1 ≤ 256 ^ ilog256 (n / 256) := hlt
    calc n < 256 * (n / 256 + 1) := by omega
      _ ≤ 256 * 256 ^ ilog256 (n / 256) := by
            exact Nat.mul_le_mul_left 256 h1
      _ = 256 ^ (ilog256 (n / 256) + 1) := by
            rw [Nat.pow_succ, Nat.mul_comm]

theorem pow_pred_le_of_ne_zero {n : Nat} (h : n ≠ 0) :
  256 ^ (ilog256 n - 1) ≤ n := by
induction n using Nat.strong_induction_on with
| _ n ih =>
  rw [ilog256_of_ne_zero h]
  rcases eq_or_ne (n / 256) 0 with hz | hnz
  · simpa [hz, ilog256_zero] using Nat.pos_of_ne_zero h
  · have hdiv : n / 256 < n := Nat.div_lt_self (Nat.pos_of_ne_zero h) (by norm_num)
    have hle := ih (n / 256) hdiv hnz
    have hk : 1 ≤ ilog256 (n / 256) := by
      rw [ilog256_of_ne_zero hnz]; omega
    have : 256 ^ (ilog256 (n / 256) - 1 + 1) ≤ 256 * (n / 256) := by
      rw [Nat.pow_succ, Nat.mul_comm]
      exact Nat.mul_le_mul_left 256 hle
    have hsub : ilog256 (n / 256) - 1 + 1 = ilog256 (n / 256) := by omega
    rw [hsub] at this
    have hmul : 256 * (n / 256) ≤ n := Nat.mul_div_le n 256
    simpa using le_trans this hmul

theorem ilog256_le_of_lt {n k : Nat} (h : n < 256 ^ k) : ilog256 n ≤ k := by
by_contra hgt
push_neg at hgt
rcases eq_or_ne n 0 with rfl | hz
· simp [ilog256_zero] at hgt
· have h1 : k ≤ ilog256 n - 1 := by omega
  have := pow_pred_le_of_ne_zero hz
  have hpow : 256 ^ k ≤ 256 ^ (ilog256 n - 1) :=
    Nat.pow_le_pow_right (by norm_num) h1
  omega

/-- The byte length chosen by `ilog256` is exactly the ceiling logarithm
`⌈log₂₅₆(n+1)⌉`. -/
theorem ilog256_eq_clog (n : Nat) : ilog256 n = Nat.clog 256 (n + 1) := by
have hb : (1:Nat) < 256 := by norm_num
apply le_antisymm
· by_contra hgt
  push_neg at hgt
  have hle : n + 1 ≤ 256 ^ Nat.clog 256 (n + 1) :=
    (Nat.le_pow_iff_clog_le hb).2 le_rfl
  rcases eq_or_ne n 0 with rfl | hz
  · simp [ilog256_zero] at hgt
  · have h1 : Nat.clog 256 (n + 1) ≤ ilog256 n - 1 := by omega
    have hpow : 256 ^ Nat.clog 256 (n + 1) ≤ 256 ^ (ilog256 n - 1) :=
      Nat.pow_le_pow_right (by norm_num) h1
    have := pow_pred_le_of_ne_zero hz
    omega
· exact (Nat.le_pow_iff_clog_le hb).1 (lt_pow_ilog256 n)

theorem beBytes_length (k n : Nat) : (beBytes k n).length = k := by
induction k generalizing n with
| zero => simp [beBytes]
| succ k ih => simp [beBytes, ih]

theorem beBytes_bytes_lt (k n : Nat) : ∀ b ∈ beBytes k n, b < 256 := by
induction k generalizing n with
| zero => simp [beBytes]
| succ k ih =>
  intro b hb
  simp only [beBytes, List.mem_append, List.mem_singleton] at hb
  rcases hb with hb | rfl
  · exact ih _ b hb
  · have : n &&& 2 ^ 8 - 1 = n % 2 ^ 8 := Nat.and_pow_two_sub_one_eq_mod n 8
    have h255 : n &&& 255 = n % 256 := by norm_num at this; exact this
    rw [h255]
    exact Nat.mod_lt _ (by norm_num)

theorem fromBytes_append_one (bs : List Nat) (b : Nat) :
  bytesToUnsignedBigInt (bs ++ [b]) =
    (bytesToUnsignedBigInt bs <<< 8) ||| b := by
simp [bytesToUnsignedBigInt, List.foldl_append]

theorem fromBytes_beBytes (k n : Nat) :
  bytesToUnsignedBigInt (beBytes k n) = n % 256 ^ k := by
induction k generalizing n with
| zero => simp [beBytes, bytesToUnsignedBigInt, Nat.mod_one]
| succ k ih =>
  have hand : n &&& 255 = n % 256 := by
    have := Nat.and_pow_two_sub_one_eq_mod n 8
    norm_num at this; exact this
  have hshift : n >>> 8 = n / 256 := by
    simp [Nat.shiftRight_eq_div_pow]
  have hmod : n % 256 < 2 ^ 8 := by
    have := Nat.mod_lt n (show 0 < 256 by norm_num)
    omega
  rw [beBytes, fromBytes_append_one, ih, hand, hshift, Nat.shiftLeft_eq,
    Nat.mul_comm, ← Nat.mul_add_lt_is_or hmod]
  have hdiv : n / 256 % 256 ^ k = n % 256 ^ (k + 1) / 256 := by
    rw [← Nat.mod_mul_right_div_self n 256 (256 ^ k), ← Nat.pow_succ']
  have hmm : n % 256 = n % 256 ^ (k + 1) % 256 := by
    rw [Nat.mod_mod_of_dvd]
    exact dvd_pow_self 256 (Nat.succ_ne_zero k)
  rw [hdiv, hmm]
  have := Nat.div_add_mod (n % 256 ^ (k + 1)) 256
  norm_num
  omega

theorem beBytes_head (k n : Nat) (hk : 0 < k) :
  (beBytes k n).head? = some (n / 256 ^ (k - 1) % 256) := by
induction k generalizing n with
| zero => omega
| succ k ih =>
  have hand : n &&& 255 = n % 256 := by
    have := Nat.and_pow_two_sub_one_eq_mod n 8
    norm_num at this; exact this
  have hshift : n >>> 8 = n / 256 := by
    simp [Nat.shiftRight_eq_div_pow]
  rcases Nat.eq_zero_or_pos k with rfl | hpos
  · simp [beBytes, hand]
  · have hne : beBytes k (n >>> 8) ≠ [] := by
      intro hnil
      have := beBytes_length k (n >>> 8)
      rw [hnil] at this
      simp at this
      omega
    rw [beBytes, List.head?_append_of_ne_nil _ hne, ih _ hpos, hshift]
    congr 2
    rw [Nat.div_div_eq_div_mul, ← Nat.pow_succ']
    congr 2
    omega

/-- CLAIM C9.  The arbitrary-precision integer byte codec: for every
non-negative integer `n`, `unsignedBigIntToBytes` succeeds and produces a
big-endian byte sequence that `bytesToUnsignedBigInt` folds back to `n`;
the byte length is exactly the minimal `⌈log₂₅₆(n+1)⌉`, `n = 0` yields the
empty sequence, and there is never a leading zero byte; for negative `n`
the conversion fails with the unsigned-input assertion. -/
theorem unsignedToBytes_roundtrip_minimal (n : Int) :
  (n < 0 → unsignedBigIntToBytes n = Except.error EncErr.assertUnsigned)
  ∧ (0 ≤ n →
      ∀ bs, unsignedBigIntToBytes n = Except.ok bs →
        bytesToUnsignedBigInt bs = n.toNat
        ∧ bs.length = Nat.clog 256 (n.toNat + 1)
        ∧ (n = 0 → bs = [])
        ∧ bs.head? ≠ some 0
        ∧ (∀ b ∈ bs, b < 256)) := by
constructor
· intro hneg
  simp [unsignedBigIntToBytes, hneg]
· intro hpos bs hbs
  have hnn : ¬ n < 0 := not_lt.2 hpos
  simp only [unsignedBigIntToBytes, if_neg hnn, Except.ok.injEq] at hbs
  subst hbs
  refine ⟨?_, ?_, ?_, ?_, ?_⟩
  · rw [fromBytes_beBytes]
    exact Nat.mod_eq_of_lt (lt_pow_ilog256 n.toNat)
  · rw [beBytes_length, ilog256_eq_clog]
  · intro h0
    subst h0
    simp [Int.toNat_zero, ilog256_zero, beBytes]
  · intro hhead
    rcases Nat.eq_zero_or_pos (ilog256 n.toNat) with hz | hpos'
    · rw [hz] at hhead
      simp [beBytes] at hhead
    · rw [beBytes_head _ _ hpos'] at hhead
      have hne : n.toNat ≠ 0 := by
        intro h0
        rw [h0, ilog256_zero] at hpos'
        omega
      have hlow := pow_pred_le_of_ne_zero hne
      have hhigh := lt_pow_ilog256 n.toNat
      have hdiv_pos : 1 ≤ n.toNat / 256 ^ (ilog256 n.toNat - 1) :=
        (Nat.one_le_div_iff (Nat.pos_pow_of_pos _ (by norm_num))).2 hlow
      have hdiv_lt : n.toNat / 256 ^ (ilog256 n.toNat - 1) < 256 := by
        rw [Nat.div_lt_iff_lt_mul (Nat.pos_pow_of_pos _ (by norm_num))]
        have hsplit : 256 ^ ilog256 n.toNat = 256 ^ (ilog256 n.toNat - 1) * 256 := by
          rw [← Nat.pow_succ]
          congr 1
          omega
        omega
      have : n.toNat / 256 ^ (ilog256 n.toNat - 1) % 256 =
          n.toNat / 256 ^ (ilog256 n.toNat - 1) := Nat.mod_eq_of_lt hdiv_lt
      rw [this] at hhead
      have := Option.some.inj hhead
      omega
  · exact beBytes_bytes_lt _ _

/-- Witness for C9: the theorem instantiated at `n = -1` and `n = 1000`
with every hypothesis discharged concretely (`1000` encodes as the two
bytes `[3, 232]`). -/
theorem unsignedToBytes_roundtrip_minimal_witness :
  ((-1 : Int) < 0 ∧ unsignedBigIntToBytes (-1) = Except.error EncErr.assertUnsigned)
  ∧ ((0 : Int) ≤ 1000
      ∧ bytesToUnsignedBigInt [3, 232] = (1000 : Int).toNat
      ∧ [3, 232].length = Nat.clog 256 ((1000 : Int).toNat + 1)) := by
have hok : unsignedBigIntToBytes 1000 = Except.ok [3, 232] := by
  have h1 : ilog256 1000 = 2 := by
    rw [ilog256_of_ne_zero (by norm_num), ilog256_of_ne_zero (by norm_num)]
    norm_num
    rw [ilog256_zero]
  simp [unsignedBigIntToBytes, h1, beBytes]
  decide
have hmain := (unsignedToBytes_roundtrip_minimal 1000).2 (by norm_num) [3, 232] hok
exact ⟨⟨by norm_num, (unsignedToBytes_roundtrip_minimal (-1)).1 (by norm_num)⟩,
  by norm_num, hmain.1, hmain.2.1⟩

/-! ## Value model

The JavaScript values that flow through the codec, as a closed variant.
`num` is a JavaScript number holding an integer (for which
`Number.isInteger` is `true`); `floatBits` is a number produced by one of
the decoder's float reads, represented by the raw big-endian bit pattern it
was read from (its IEEE-754 numeric value is not needed by any property
proved here); text strings are carried as their UTF-8 byte sequences, so
`TextEncoder.encode` on a string value is the identity on the payload. -/
inductive Value where
/-- A JavaScript number holding an integer. -/
| num (n : Int)
/-- A JavaScript number obtained from a half/single/double float read;
`width` is 16, 32 or 64 and `bits` the raw big-endian pattern. -/
| floatBits (width : Nat) (bits : Nat)
/-- A JavaScript `bigint`. -/
| bignum (n : Int)
| bool (b : Bool)
| nullV
| undefined
/-- A `Uint8Array`. -/
| bytes (bs : List Nat)
/-- A JavaScript string, as validated UTF-8 bytes. -/
| str (utf8 : List Nat)
| arr (items : List Value)
/-- A JavaScript `Map`, as its insertion-ordered entry list. -/
| map (entries : List (Value × Value))
/-- A `Date` built by `new Date(s)` from a string (tag 0). -/
| dateFromString (utf8 : List Nat)
/-- A `Date` built by `new Date(x)` from a number `x` (tag 1).  By
JavaScript semantics such a Date's epoch timestamp in milliseconds is
exactly the numeric argument. -/
| dateFromNumberMs (arg : Value)
/-- A `URL` built from the given text (tag 32; URL syntax validation is
not modelled, no claim exercises it). -/
| url (utf8 : List Nat)
/-- A plain object built by `Object.fromEntries` (tag 275). -/
| record (entries : List (List Nat × Value))
/-- The decoder's internal `ITEM_BREAK` symbol for the `0xff` header. -/
| breakSentinel
/-- The `Symbol("NOT_IMPLEMENTED")` returned after the decoder's jump
table falls through every case. -/
| notImplemented

/-- The epoch timestamp, in milliseconds, of a decoded `Date` value whose
constructor argument was an integer number (JavaScript `Date.getTime`). -/
def dateEpochMs : Value → Option Int
| .dateFromNumberMs (.num n) => some n
| _ => none

/-! ## Encoder engine (`src/encoder.ts`)

`src/encoder.ts` and the second encoder copy kept next to `TaggedValue`
(`src/tag.ts` blob) have byte-identical bodies for every function embedded
below (`encodeByteString`, `encodeInteger`, `encodeNegativeInteger`,
`encodeUnsignedInteger`, `encodeFloat` and the big-integer paths), so the
embedding serves both copies. -/

/-- `Number.MAX_SAFE_INTEGER`. -/
def MAX_SAFE_INTEGER : Nat := 9007199254740991

/-- `MAX_U8` from `src/constants.ts`. -/
def MAX_U8 : Nat := 0xff

/-- `MAX_U16` from `src/constants.ts`. -/
def MAX_U16 : Nat := 0xffff

/-- `MAX_U32` from `src/constants.ts`. -/
def MAX_U32 : Nat := 0xffffffff

/-- `MAX_U64` from `src/constants.ts`. -/
def MAX_U64 : Nat := 0xffffffffffffffff

/-- Number of binary digits of `a` (zero for zero). -/
def bitlen (a : Nat) : Nat := if a = 0 then 0 else Nat.log2 a + 1

/-- Whether the integer `a` is exactly representable with a `mantBits`-bit
mantissa and magnitude below `2 ^ expCap`.  For an integer-valued double
`n`, `Object.is(Math.fround(n), n)` holds exactly when
`binaryRepresentable 24 128 n.natAbs` does. -/
def binaryRepresentable (mantBits expCap a : Nat) : Bool :=
a == 0 ||
  (bitlen a ≤ expCap &&
    (bitlen a ≤ mantBits || a % 2 ^ (bitlen a - mantBits) == 0))

/-- The `Object.is(Math.fround(n), n)` test of `encodeFloat`, evaluated at
an integer-valued number. -/
def froundExactInt (n : Int) : Bool := binaryRepresentable 24 128 n.natAbs

/-- IEEE-754 bit pattern of the integer `n` in a format with `mantBits`
stored mantissa bits, exponent bias `bias` and sign bit position `signPos`.
Exact whenever `n` is representable in the format — the only inputs the
embedded encoder ever feeds it, since a JavaScript number is a double and
the single-precision branch is guarded by `froundExactInt`. -/
def floatBitsOfInt (mantBits bias signPos : Nat) (n : Int) : Nat :=
if n = 0 then 0
else
  let a := n.natAbs
  let e := Nat.log2 a
  (if n < 0 then 2 ^ signPos else 0) + (e + bias) * 2 ^ mantBits +
    (a * 2 ^ mantBits / 2 ^ e - 2 ^ mantBits)

/-- `CborEncoder.encodeFloat`: single precision when the value survives
`Math.fround` unchanged, double precision otherwise. -/
def encodeFloat (n : Int) : List Nat :=
if froundExactInt n then 0xfa :: beBytes 4 (floatBitsOfInt 23 127 31 n)
else 0xfb :: beBytes 8 (floatBitsOfInt 52 1023 63 n)

/-- `CborEncoder.encodeBoolean`. -/
def encodeBoolean (b : Bool) : List Nat :=
if b = true then [0xf5] else [0xf4]

/-- `CborEncoder.encodeByteString`: inline header for lengths up to 23,
then the 8-bit tier writing header byte `0x3b`, then `throw new
Error("todo")`. -/
def encodeByteString (view : List Nat) : Except EncErr (List Nat) :=
if view.length ≤ 0x17 then .ok ((view.length + 0x40) :: view)
else if view.length ≤ MAX_U8 then .ok (0x3b :: view.length :: view)
else .error .todoByteString

/-- `CborEncoder.encodeString` (the `src/encoder.ts` copy): inline header
for UTF-8 lengths up to 23, 8-bit tier with header `0x78`, then the
long-string error. -/
def encodeString (encoded : List Nat) : Except EncErr (List Nat) :=
if encoded.length ≤ 0x17 then .ok ((encoded.length + 0x60) :: encoded)
else if encoded.length ≤ MAX_U8 then .ok (0x78 :: encoded.length :: encoded)
else .error .stringTooLong

/-- `CborEncoder.encodeUnsignedBigInt`: 64-bit header field when the value
fits, otherwise tag 2 over the byte-codec form. -/
def encodeUnsignedBigInt (n : Nat) : Except EncErr (List Nat) :=
if n ≤ MAX_U64 then .ok (0x1b :: beBytes 8 n)
else do
  let bsenc ← unsignedBigIntToBytes n
  let e ← encodeByteString bsenc
  .ok (0xc2 :: e)

/-- `CborEncoder.encodeNegativeBigInt`: asserts the input is negative,
takes `n = -x - 1`, then a 64-bit header field or tag 3 over the byte-codec
form. -/
def encodeNegativeBigInt (x : Int) : Except EncErr (List Nat) :=
if 0 ≤ x then .error .assertFailed
else
  let n : Int := -x - 1
  if n ≤ (MAX_U64 : Int) then .ok (0x3b :: beBytes 8 n.toNat)
  else do
    let bsenc ← unsignedBigIntToBytes n
    let e ← encodeByteString bsenc
    .ok (0xc3 :: e)

/-- `CborEncoder.encodeUnsignedInteger`: narrowest adequate header width,
falling back to the big-integer path above 32 bits. -/
def encodeUnsignedInteger (n : Nat) : Except EncErr (List Nat) :=
if n ≤ 0x17 then .ok [n]
else if n ≤ MAX_U8 then .ok [0x18, n]
else if n ≤ MAX_U16 then .ok (0x19 :: beBytes 2 n)
else if n ≤ MAX_U32 then .ok (0x1a :: beBytes 4 n)
else encodeUnsignedBigInt n

/-- `CborEncoder.encodeNegativeInteger`: asserts negativity, encodes
`n = -x - 1` at the narrowest width, falling back to the negative
big-integer path above 32 bits. -/
def encodeNegativeInteger (x : Int) : Except EncErr (List Nat) :=
if 0 ≤ x then .error .assertFailed
else
  let n : Nat := (-x - 1).toNat
  if n ≤ 0x17 then .ok [n + 0x20]
  else if n ≤ MAX_U8 then .ok [0x38, n]
  else if n ≤ MAX_U16 then .ok (0x39 :: beBytes 2 n)
  else if n ≤ MAX_U32 then .ok (0x3a :: beBytes 4 n)
  else encodeNegativeBigInt x

/-- `CborEncoder.encodeInteger`: values above `Number.MAX_SAFE_INTEGER` are
short-circuited to float encoding; otherwise dispatch on sign. -/
def encodeInteger (n : Int) : Except EncErr (List Nat) :=
if (MAX_SAFE_INTEGER : Int) < n then .ok (encodeFloat n)
else if 0 ≤ n then encodeUnsignedInteger n.toNat
else encodeNegativeInteger n

/-- `CborEncoder.encodeNumber` at an integer-valued number:
`Number.isInteger` holds, so control passes to `encodeInteger`. -/
def encodeNumber (n : Int) : Except EncErr (List Nat) := encodeInteger n

/-- `CborEncoder.encodeBigInt`. -/
def encodeBigInt (n : Int) : Except EncErr (List Nat) :=
if 0 ≤ n then encodeUnsignedBigInt n.toNat
else encodeNegativeBigInt n

mutual
/-- `CborEncoder.encode` from `src/encoder.ts` (the copy wired into the
public `src/index.ts` entry point): dispatch on the runtime type of the
value, ending in `throw new Error("Not implemented yet")` for maps,
dates, URLs, plain objects and every other unsupported value.  A number
holding a non-integer double would take the `encodeFloat` path, which
depends on IEEE-754 values not modelled here; no claim encodes such a
value. -/
def encode : Value → Except EncErr (List Nat)
  | .num n => encodeNumber n
  | .floatBits _ _ => .error .unmodeled
  | .bignum n => encodeBigInt n
  | .bool b => .ok (encodeBoolean b)
  | .nullV => .ok [0xf6]
  | .undefined => .ok [0xf7]
  | .str s => encodeString s
  | .bytes bs => encodeByteString bs
  | .arr items => encodeArray items
  | .map _ => .error .notImplementedYet
  | .dateFromString _ => .error .notImplementedYet
  | .dateFromNumberMs _ => .error .notImplementedYet
  | .url _ => .error .notImplementedYet
  | .record _ => .error .notImplementedYet
  | .breakSentinel => .error .notImplementedYet
  | .notImplemented => .error .notImplementedYet
termination_by v => (sizeOf v, 0)

/-- `CborEncoder.encodeArray`: encode the elements independently, then
prepend the narrowest count header and concatenate. -/
def encodeArray (items : List Value) : Except EncErr (List Nat) := do
  let data ← encodeEach items
  let body := data.flatten
  if items.length ≤ 0x17 then .ok ((items.length + 0x80) :: body)
  else if items.length ≤ MAX_U8 then .ok (0x98 :: items.length :: body)
  else if items.length ≤ MAX_U16 then .ok (0x99 :: beBytes 2 items.length ++ body)
  else .ok (0x9a :: beBytes 4 items.length ++ body)
termination_by (sizeOf items, 1)

/-- The `items.map(item => this.encode(item))` step of `encodeArray`. -/
def encodeEach : List Value → Except EncErr (List (List Nat))
  | [] => .ok []
  | v :: vs => do
    let e ← encode v
    let es ← encodeEach vs
    .ok (e :: es)
termination_by l => (sizeOf l, 0)
end

/-! ## Decoder engine (`src/decoder.ts`, public entry `src/index.ts`) -/

/-- Errors raised by the decoder. -/
inductive DecErr where
  /-- `RangeError` from a `DataView` read past the end of the buffer. -/
  | oob
  /-- The chunk-type error of the indefinite byte string (`0x5f`). -/
  | chunkType
  /-- `RangeError("maximum string length exceeded")` (`0x7b`). -/
  | maxStringLength
  /-- The 64-bit array count `RangeError` (`0x9b`). -/
  | arrayTooBig
  /-- Non-byte-string inner value of a bignum tag (`0xc2`/`0xc3`). -/
  | bignumInner
  /-- The template-literal error naming the header byte thrown for the
  simple-value headers `0xe0`–`0xf3` and `0xf8`. -/
  | simpleValue (header : Nat)
  /-- A failed generic `assert(...)` inside `decodeWithTag`. -/
  | assertFailed
  /-- `TypeError("decimal fractions not supported")` (tag 4). -/
  | decimalFractions
  /-- `TypeError("bigfloats not supported")` (tag 5). -/
  | bigfloats
  /-- The `throw new Error("TODO")` default of `decodeWithTag`. -/
  | todo
  /-- The `throw new Error("unreachable")` arm for tags 2/3 reached through
  a wide tag header. -/
  | unreachableTag
  /-- `TypeError` from the fatal `TextDecoder` on invalid UTF-8. -/
  | invalidUtf8
  /-- The non-string-key `TypeError` of tag 275. -/
  | recordKey
  /-- Marker for the string coercion a `0x7f` indefinite text string would
  apply to a non-string chunk; the coercion depends on `String(...)`
  semantics not modelled here and is unreached by every claim. -/
  | unmodeledCoercion
  /-- Fuel exhaustion of the embedding; never a behaviour of the code. -/
  | outOfFuel
  deriving DecidableEq

/-- `DataView.getUint8`: one byte at the cursor, or a `RangeError`. -/
def readUint8 (bytes : List Nat) (off : Nat) : Except DecErr (Nat × Nat) :=
  match bytes.drop off with
  | b :: _ => .ok (b, off + 1)
  | [] => .error .oob

/-- `DataView.getUint16` big-endian. -/
def readUint16 (bytes : List Nat) (off : Nat) : Except DecErr (Nat × Nat) :=
  match bytes.drop off with
  | a :: b :: _ => .ok (a * 256 + b, off + 2)
  | _ => .error .oob

/-- `DataView.getUint32` big-endian. -/
def readUint32 (bytes : List Nat) (off : Nat) : Except DecErr (Nat × Nat) :=
  match bytes.drop off with
  | a :: b :: c :: d :: _ =>
    .ok (((a * 256 + b) * 256 + c) * 256 + d, off + 4)
  | _ => .error .oob

/-- `DataView.getBigUint64` big-endian. -/
def readUint64 (bytes : List Nat) (off : Nat) : Except DecErr (Nat × Nat) :=
  match bytes.drop off with
  | a :: b :: c :: d :: e :: f :: g :: h :: _ =>
    .ok (((((((a * 256 + b) * 256 + c) * 256 + d) * 256 + e) * 256 + f)
      * 256 + g) * 256 + h, off + 8)
  | _ => .error .oob

/-- `CborDecoder.take`: `Uint8Array.subarray` clamps both endpoints to the
buffer, so a declared length larger than the remainder yields the
remaining bytes without any error, and the cursor still advances by the
declared length. -/
def takeBytes (bytes : List Nat) (off n : Nat) : List Nat × Nat :=
  ((bytes.drop off).take n, off + n)

/-- Whether `b` is a UTF-8 continuation byte. -/
def utf8Cont (b : Nat) : Bool := 0x80 ≤ b && b ≤ 0xbf

/-- Validation performed by `new TextDecoder("utf-8", { fatal: true })`:
well-formed UTF-8, rejecting overlong forms, surrogates and values above
U+10FFFF. -/
def validUtf8 : List Nat → Bool
  | [] => true
  | b :: rest =>
    if b ≤ 0x7f then validUtf8 rest
    else if 0xc2 ≤ b && b ≤ 0xdf then
      match rest with
      | b1 :: r => utf8Cont b1 && validUtf8 r
      | [] => false
    else if b = 0xe0 then
      match rest with
      | b1 :: b2 :: r => (0xa0 ≤ b1 && b1 ≤ 0xbf) && utf8Cont b2 && validUtf8 r
      | _ => false
    else if (0xe1 ≤ b && b ≤ 0xec) || b = 0xee || b = 0xef then
      match rest with
      | b1 :: b2 :: r => utf8Cont b1 && utf8Cont b2 && validUtf8 r
      | _ => false
    else if b = 0xed then
      match rest with
      | b1 :: b2 :: r => (0x80 ≤ b1 && b1 ≤ 0x9f) && utf8Cont b2 && validUtf8 r
      | _ => false
    else if b = 0xf0 then
      match rest with
      | b1 :: b2 :: b3 :: r =>
        (0x90 ≤ b1 && b1 ≤ 0xbf) && utf8Cont b2 && utf8Cont b3 && validUtf8 r
      | _ => false
    else if 0xf1 ≤ b && b ≤ 0xf3 then
      match rest with
      | b1 :: b2 :: b3 :: r =>
        utf8Cont b1 && utf8Cont b2 && utf8Cont b3 && validUtf8 r
      | _ => false
    else if b = 0xf4 then
      match rest with
      | b1 :: b2 :: b3 :: r =>
        (0x80 ≤ b1 && b1 ≤ 0x8f) && utf8Cont b2 && utf8Cont b3 && validUtf8 r
      | _ => false
    else false

/-- `TEXT_DECODER.decode` with `fatal: true`: a string value on valid
UTF-8, a `TypeError` otherwise. -/
def textDecode (bs : List Nat) : Except DecErr Value :=
  if validUtf8 bs then .ok (.str bs) else .error .invalidUtf8

/-- The `chunks.every(chunk => chunk instanceof Uint8Array)` check of the
indefinite byte string, returning the chunk payloads when it passes. -/
def allBytesChunks : List Value → Option (List (List Nat))
  | [] => some []
  | .bytes b :: rest => (allBytesChunks rest).map (b :: ·)
  | _ => none

/-- The string chunks of an indefinite text string.  `none` marks a
non-string chunk, which the JavaScript `String.prototype.concat` reduce
would coerce; that coercion is not modelled (unreached by every claim). -/
def allStrChunks : List Value → Option (List (List Nat))
  | [] => some []
  | .str s :: rest => (allStrChunks rest).map (s :: ·)
  | _ => none

/-- `Iterator.pairs` applied to a fully materialised sequence: consecutive
pairs, stopping when either half of a pair is missing. -/
def pairUp : List Value → List (Value × Value)
  | a :: b :: rest => (a, b) :: pairUp rest
  | _ => []

/-- One step of `Object.fromEntries`: a later duplicate key overwrites the
earlier value in place, otherwise the entry is appended. -/
def objInsert (acc : List (List Nat × Value)) (k : List Nat) (v : Value) :
    List (List Nat × Value) :=
  if acc.any (fun p => p.1 == k) then
    acc.map (fun p => if p.1 == k then (k, v) else p)
  else acc ++ [(k, v)]

/-- The map payload of a string-keyed `Value.map` entry. -/
def strKeyBytes : Value → List Nat
  | .str s => s
  | _ => []

/-- Tag 275: check every key is a string, then `Object.fromEntries`. -/
def recordOfMap (entries : List (Value × Value)) : Except DecErr Value :=
  if entries.all (fun kv => match kv.1 with | .str _ => true | _ => false) then
    .ok (.record (entries.foldl
      (fun acc kv => objInsert acc (strKeyBytes kv.1) kv.2) []))
  else .error .recordKey

/-- The decoder's mutually recursive operations at one fuel level:
`item`/`next` of `CborDecoder`, the `sequence` generator, the
`Iterator.take` and `Iterator.take ∘ Iterator.pairs` consumers, and
`decodeWithTag`. -/
structure DecFns where
  item : List Nat → Nat → Except DecErr (Value × Nat)
  next : List Nat → Nat → Except DecErr (Option Value × Nat)
  seqItems : List Nat → Nat → Except DecErr (List Value × Nat)
  takeItems : List Nat → Nat → Nat → Except DecErr (List Value × Nat)
  takePairs : List Nat → Nat → Nat → Except DecErr (List (Value × Value) × Nat)
  decodeWithTag : Nat → Value → Except DecErr Value

/-- The fuel-indexed family of decoder operations.  Every recursive call of
the JavaScript decoder steps down one fuel level; fuel only bounds call
depth and `outOfFuel` never fires at the fuel supplied by `decodeBytes`
for the inputs considered in this development. -/
def decoders : Nat → DecFns
  | 0 =>
    { item := fun _ _ => .error .outOfFuel
      next := fun _ _ => .error .outOfFuel
      seqItems := fun _ _ => .error .outOfFuel
      takeItems := fun _ _ _ => .error .outOfFuel
      takePairs := fun _ _ _ => .error .outOfFuel
      decodeWithTag := fun _ _ => .error .outOfFuel }
  | fuel + 1 =>
    let p := decoders fuel
    { item := fun bytes off => do
        let (h, off) ← readUint8 bytes off
        if h ≤ 0x17 then .ok (.num h, off)
        else if h = 0x18 then do
          let (v, off) ← readUint8 bytes off
          .ok (.num v, off)
        else if h = 0x19 then do
          let (v, off) ← readUint16 bytes off
          .ok (.num v, off)
        else if h = 0x1a then do
          let (v, off) ← readUint32 bytes off
          .ok (.num v, off)
        else if h = 0x1b then do
          let (v, off) ← readUint64 bytes off
          if v ≤ MAX_SAFE_INTEGER then .ok (.num v, off)
          else .ok (.bignum v, off)
        else if 0x20 ≤ h ∧ h ≤ 0x37 then
          .ok (.num (-1 - ((h : Int) - 0x20)), off)
        else if h = 0x38 then do
          let (v, off) ← readUint8 bytes off
          .ok (.num (-1 - (v : Int)), off)
        else if h = 0x39 then do
          let (v, off) ← readUint16 bytes off
          .ok (.num (-1 - (v : Int)), off)
        else if h = 0x3a then do
          let (v, off) ← readUint32 bytes off
          .ok (.num (-1 - (v : Int)), off)
        else if h = 0x3b then do
          let (v, off) ← readUint64 bytes off
          if v ≤ MAX_SAFE_INTEGER then .ok (.num (-1 - (v : Int)), off)
          else .ok (.bignum (-1 - (v : Int)), off)
        else if h = 0x40 then .ok (.bytes [], off)
        else if 0x41 ≤ h ∧ h ≤ 0x57 then
          let (bs, off) := takeBytes bytes off (h - 0x40)
          .ok (.bytes bs, off)
        else if h = 0x58 then do
          let (n, off) ← readUint8 bytes off
          let (bs, off) := takeBytes bytes off n
          .ok (.bytes bs, off)
        else if h = 0x59 then do
          let (n, off) ← readUint16 bytes off
          let (bs, off) := takeBytes bytes off n
          .ok (.bytes bs, off)
        else if h = 0x5a then do
          let (n, off) ← readUint32 bytes off
          let (bs, off) := takeBytes bytes off n
          .ok (.bytes bs, off)
        else if h = 0x5b then do
          let (n, off) ← readUint64 bytes off
          let (bs, off) := takeBytes bytes off n
          .ok (.bytes bs, off)
        else if h = 0x5f then do
          let (chunks, off) ← p.seqItems bytes off
          match allBytesChunks chunks with
          | some bss => .ok (.bytes bss.flatten, off)
          | none => .error .chunkType
        else if h = 0x60 then .ok (.str [], off)
        else if 0x61 ≤ h ∧ h ≤ 0x77 then do
          let (bs, off) := takeBytes bytes off (h - 0x60)
          let s ← textDecode bs
          .ok (s, off)
        else if h = 0x78 then do
          let (n, off) ← readUint8 bytes off
          let (bs, off) := takeBytes bytes off n
          let s ← textDecode bs
          .ok (s, off)
        else if h = 0x79 then do
          let (n, off) ← readUint16 bytes off
          let (bs, off) := takeBytes bytes off n
          let s ← textDecode bs
          .ok (s, off)
        else if h = 0x7a then do
          let (n, off) ← readUint32 bytes off
          let (bs, off) := takeBytes bytes off n
          let s ← textDecode bs
          .ok (s, off)
        else if h = 0x7b then do
          let (n, off) ← readUint64 bytes off
          if MAX_SAFE_INTEGER < n then .error .maxStringLength
          else do
            let (bs, off) := takeBytes bytes off n
            let s ← textDecode bs
            .ok (s, off)
        else if h = 0x7f then do
          let (chunks, off) ← p.seqItems bytes off
          match allStrChunks chunks with
          | some ss => .ok (.str ss.flatten, off)
          | none => .error .unmodeledCoercion
        else if h = 0x80 then .ok (.arr [], off)
        else if 0x81 ≤ h ∧ h ≤ 0x97 then do
          let (vs, off) ← p.takeItems bytes (h - 0x80) off
          .ok (.arr vs, off)
        else if h = 0x98 then do
          let (n, off) ← readUint8 bytes off
          let (vs, off) ← p.takeItems bytes n off
          .ok (.arr vs, off)
        else if h = 0x99 then do
          let (n, off) ← readUint16 bytes off
          let (vs, off) ← p.takeItems bytes n off
          .ok (.arr vs, off)
        else if h = 0x9a then do
          let (n, off) ← readUint32 bytes off
          let (vs, off) ← p.takeItems bytes n off
          .ok (.arr vs, off)
        else if h = 0x9b then do
          let (n, off) ← readUint64 bytes off
          if MAX_U32 < n then .error .arrayTooBig
          else do
            let (vs, off) ← p.takeItems bytes n off
            .ok (.arr vs, off)
        else if h = 0x9f then do
          let (vs, off) ← p.seqItems bytes off
          .ok (.arr vs, off)
        else if h = 0xa0 then .ok (.map [], off)
        else if 0xa1 ≤ h ∧ h ≤ 0xb7 then do
          let (ps, off) ← p.takePairs bytes (h - 0xa0) off
          .ok (.map ps, off)
        else if h = 0xb8 then do
          let (n, off) ← readUint8 bytes off
          let (ps, off) ← p.takePairs bytes n off
          .ok (.map ps, off)
        else if h = 0xb9 then do
          let (n, off) ← readUint16 bytes off
          let (ps, off) ← p.takePairs bytes n off
          .ok (.map ps, off)
        else if h = 0xba then do
          let (n, off) ← readUint32 bytes off
          let (ps, off) ← p.takePairs bytes n off
          .ok (.map ps, off)
        else if h = 0xbb then do
          let (n, off) ← readUint64 bytes off
          let (ps, off) ← p.takePairs bytes n off
          .ok (.map ps, off)
        else if h = 0xbf then do
          let (vs, off) ← p.seqItems bytes off
          .ok (.map (pairUp vs), off)
        else if h = 0xc2 then do
          let (inner, off) ← p.item bytes off
          match inner with
          | .bytes bs => .ok (.bignum (bytesToUnsignedBigInt bs), off)
          | _ => .error .bignumInner
        else if h = 0xc3 then do
          let (inner, off) ← p.item bytes off
          match inner with
          | .bytes bs => .ok (.bignum (-1 - (bytesToUnsignedBigInt bs : Int)), off)
          | _ => .error .bignumInner
        else if h = 0xc0 ∨ (0xc6 ≤ h ∧ h ≤ 0xd4) then do
          let (inner, off) ← p.item bytes off
          let v ← p.decodeWithTag (h - 0xc0) inner
          .ok (v, off)
        else if h = 0xd8 then do
          let (t, off) ← readUint8 bytes off
          let (inner, off) ← p.item bytes off
          let v ← p.decodeWithTag t inner
          .ok (v, off)
        else if h = 0xd9 then do
          let (t, off) ← readUint16 bytes off
          let (inner, off) ← p.item bytes off
          let v ← p.decodeWithTag t inner
          .ok (v, off)
        else if h = 0xda then do
          let (t, off) ← readUint32 bytes off
          let (inner, off) ← p.item bytes off
          let v ← p.decodeWithTag t inner
          .ok (v, off)
        else if h = 0xdb then do
          let (t, off) ← readUint64 bytes off
          let (inner, off) ← p.item bytes off
          let v ← p.decodeWithTag t inner
          .ok (v, off)
        else if (0xe0 ≤ h ∧ h ≤ 0xf3) ∨ h = 0xf8 then
          .error (.simpleValue h)
        else if h = 0xf4 then .ok (.bool false, off)
        else if h = 0xf5 then .ok (.bool true, off)
        else if h = 0xf6 then .ok (.nullV, off)
        else if h = 0xf7 then .ok (.undefined, off)
        else if h = 0xf9 then do
          let (bits, off) ← readUint16 bytes off
          .ok (.floatBits 16 bits, off)
        else if h = 0xfa then do
          let (bits, off) ← readUint32 bytes off
          .ok (.floatBits 32 bits, off)
        else if h = 0xfb then do
          let (bits, off) ← readUint64 bytes off
          .ok (.floatBits 64 bits, off)
        else if h = 0xff then .ok (.breakSentinel, off)
        else .ok (.notImplemented, off)
      next := fun bytes off =>
        if bytes.length ≤ off then .ok (none, off)
        else do
          let (v, off) ← p.item bytes off
          .ok (some v, off)
      seqItems := fun bytes off => do
        let (o, off) ← p.next bytes off
        match o with
        | none => .ok ([], off)
        | some .breakSentinel => .ok ([], off)
        | some v => do
          let (vs, off) ← p.seqItems bytes off
          .ok (v :: vs, off)
      takeItems := fun bytes n off =>
        match n with
        | 0 => .ok ([], off)
        | k + 1 => do
          let (o, off) ← p.next bytes off
          match o with
          | none => .ok ([], off)
          | some v => do
            let (vs, off) ← p.takeItems bytes k off
            .ok (v :: vs, off)
      takePairs := fun bytes n off =>
        match n with
        | 0 => .ok ([], off)
        | k + 1 => do
          let (o1, off) ← p.next bytes off
          let (o2, off) ← p.next bytes off
          match o1, o2 with
          | some a, some b => do
            let (ps, off) ← p.takePairs bytes k off
            .ok ((a, b) :: ps, off)
          | _, _ => .ok ([], off)
      decodeWithTag := fun tag it =>
        if tag = 0 then
          match it with
          | .str s => .ok (.dateFromString s)
          | _ => .error .assertFailed
        else if tag = 1 then
          match it with
          | .num n => .ok (.dateFromNumberMs (.num n))
          | .floatBits w b => .ok (.dateFromNumberMs (.floatBits w b))
          | _ => .error .assertFailed
        else if tag = 2 ∨ tag = 3 then .error .unreachableTag
        else if tag = 4 then .error .decimalFractions
        else if tag = 5 then .error .bigfloats
        else if tag = 24 then
          match it with
          | .bytes bs => do
            let (o, _) ← p.next bs 0
            match o with
            | none => .ok .undefined
            | some v => .ok v
          | _ => .error .assertFailed
        else if tag = 32 then
          match it with
          | .str s => .ok (.url s)
          | _ => .error .assertFailed
        else if tag = 275 then
          match it with
          | .map entries => recordOfMap entries
          | _ => .error .assertFailed
        else .error .todo }

/-- `CborDecoder.item` at a given fuel level. -/
def itemD (fuel : Nat) (bytes : List Nat) (off : Nat) :
    Except DecErr (Value × Nat) :=
  (decoders fuel).item bytes off

/-- `CborDecoder.decodeWithTag` at a given fuel level. -/
def decodeWithTagD (fuel : Nat) (tag : Nat) (it : Value) :
    Except DecErr Value :=
  (decoders fuel).decodeWithTag tag it

/-- The public `decode` entry point of `src/index.ts`: construct a decoder
over the buffer and return `next().value`, which is `undefined` when the
buffer is already exhausted.  The supplied fuel dominates the decoder's
call depth on any buffer of this length. -/
def decodeBytes (bytes : List Nat) : Except DecErr Value :=
  match (decoders (4 * bytes.length + 8)).next bytes 0 with
  | .ok (none, _) => .ok .undefined
  | .ok (some v, _) => .ok v
  | .error e => .error e

/-! ## Helper lemmas about the decoder's tag dispatch -/

theorem decodeWithTagD_tag4 (fuel : Nat) (it : Value) :
    decodeWithTagD (fuel + 1) 4 it = Except.error DecErr.decimalFractions := rfl

theorem decodeWithTagD_tag5 (fuel : Nat) (it : Value) :
    decodeWithTagD (fuel + 1) 5 it = Except.error DecErr.bigfloats := rfl

theorem itemD_zero (bytes : List Nat) (off : Nat) :
    itemD 0 bytes off = Except.error DecErr.outOfFuel := rfl

/-- Unfolding of `item` at a `0xd8` header: read the one-byte tag number,
decode the inner item, then dispatch. -/
theorem itemD_d8 (fuel t : Nat) (rest : List Nat) :
    itemD (fuel + 1) (0xd8 :: t :: rest) 0 =
      Except.bind (itemD fuel (0xd8 :: t :: rest) 2)
        (fun vo => Except.bind (decodeWithTagD fuel t vo.1)
          (fun v => Except.ok (v, vo.2))) := rfl

/-- Unfolding of `item` at a `0xd9` header: read the two-byte tag number,
decode the inner item, then dispatch. -/
theorem itemD_d9 (fuel a b : Nat) (rest : List Nat) :
    itemD (fuel + 1) (0xd9 :: a :: b :: rest) 0 =
      Except.bind (itemD fuel (0xd9 :: a :: b :: rest) 3)
        (fun vo => Except.bind (decodeWithTagD fuel (a * 256 + b) vo.1)
          (fun v => Except.ok (v, vo.2))) := rfl

/-- Unfolding of `item` at a `0xda` header. -/
theorem itemD_da (fuel a b c d : Nat) (rest : List Nat) :
    itemD (fuel + 1) (0xda :: a :: b :: c :: d :: rest) 0 =
      Except.bind (itemD fuel (0xda :: a :: b :: c :: d :: rest) 5)
        (fun vo =>
          Except.bind (decodeWithTagD fuel (((a * 256 + b) * 256 + c) * 256 + d) vo.1)
          (fun v => Except.ok (v, vo.2))) := rfl

/-- Unfolding of `item` at a `0xdb` header. -/
theorem itemD_db (fuel a b c d e f g k : Nat) (rest : List Nat) :
    itemD (fuel + 1) (0xdb :: a :: b :: c :: d :: e :: f :: g :: k :: rest) 0 =
      Except.bind (itemD fuel (0xdb :: a :: b :: c :: d :: e :: f :: g :: k :: rest) 9)
        (fun vo =>
          Except.bind
            (decodeWithTagD fuel
              (((((((a * 256 + b) * 256 + c) * 256 + d) * 256 + e) * 256 + f)
                * 256 + g) * 256 + k) vo.1)
          (fun v => Except.ok (v, vo.2))) := rfl

/-! Raw unfoldings of the public entry point at the definite-length
text-string headers: the buffer's payload region is read with the clamping
`take`, fed to the fatal text decoder, and the public wrapper propagates
the result.  Each right-hand side is definitionally the decoder's own
evaluation, left stuck only at the UTF-8 validation of the payload. -/

theorem decodeBytes_textInline_raw (h : Nat) (rest : List Nat)
    (h1 : 0x61 ≤ h) (h2 : h ≤ 0x77) :
    decodeBytes (h :: rest) =
      match Except.bind (Except.bind (textDecode (rest.take (h - 0x60)))
          (fun s => Except.ok (s, 1 + (h - 0x60))))
        (fun vo => Except.ok ((some vo.1 : Option Value), vo.2)) with
      | .ok (none, _) => Except.ok Value.undefined
      | .ok (some v, _) => Except.ok v
      | .error e => Except.error e := by
  interval_cases h <;> rfl

theorem decodeBytes_text8_raw (n : Nat) (rest : List Nat) :
    decodeBytes (0x78 :: n :: rest) =
      match Except.bind (Except.bind (textDecode (rest.take n))
          (fun s => Except.ok (s, 2 + n)))
        (fun vo => Except.ok ((some vo.1 : Option Value), vo.2)) with
      | .ok (none, _) => Except.ok Value.undefined
      | .ok (some v, _) => Except.ok v
      | .error e => Except.error e := rfl

theorem decodeBytes_text16_raw (a b : Nat) (rest : List Nat) :
    decodeBytes (0x79 :: a :: b :: rest) =
      match Except.bind (Except.bind (textDecode (rest.take (a * 256 + b)))
          (fun s => Except.ok (s, 3 + (a * 256 + b))))
        (fun vo => Except.ok ((some vo.1 : Option Value), vo.2)) with
      | .ok (none, _) => Except.ok Value.undefined
      | .ok (some v, _) => Except.ok v
      | .error e => Except.error e := rfl

theorem decodeBytes_text32_raw (a b c d : Nat) (rest : List Nat) :
    decodeBytes (0x7a :: a :: b :: c :: d :: rest) =
      match Except.bind
          (Except.bind (textDecode (rest.take (((a * 256 + b) * 256 + c) * 256 + d)))
            (fun s => Except.ok (s, 5 + (((a * 256 + b) * 256 + c) * 256 + d))))
        (fun vo => Except.ok ((some vo.1 : Option Value), vo.2)) with
      | .ok (none, _) => Except.ok Value.undefined
      | .ok (some v, _) => Except.ok v
      | .error e => Except.error e := rfl

theorem decodeBytes_text64_raw (a b c d e f g k : Nat) (rest : List Nat) :
    decodeBytes (0x7b :: a :: b :: c :: d :: e :: f :: g :: k :: rest) =
      match Except.bind
          (if MAX_SAFE_INTEGER <
              (((((((a * 256 + b) * 256 + c) * 256 + d) * 256 + e) * 256 + f)
                * 256 + g) * 256 + k) then
            Except.error DecErr.maxStringLength
          else
            Except.bind (textDecode (rest.take
                (((((((a * 256 + b) * 256 + c) * 256 + d) * 256 + e) * 256 + f)
                  * 256 + g) * 256 + k)))
              (fun s => Except.ok (s,
                9 + (((((((a * 256 + b) * 256 + c) * 256 + d) * 256 + e) * 256 + f)
                  * 256 + g) * 256 + k))))
        (fun vo => Except.ok ((some vo.1 : Option Value), vo.2)) with
      | .ok (none, _) => Except.ok Value.undefined
      | .ok (some v, _) => Except.ok v
      | .error e => Except.error e := rfl

/-! ## Claims -/

/-- CLAIM C10.  The public `decode` entry point does not fail on the empty
buffer: `next()` reports exhaustion with value `undefined`, so `decode`
returns the undefined value, indistinguishable from decoding the single
byte `0xf7`. -/
theorem decode_empty_buffer_undefined :
    decodeBytes [] = Except.ok Value.undefined
    ∧ decodeBytes [0xf7] = Except.ok Value.undefined
    ∧ decodeBytes [] = decodeBytes [0xf7] :=
  ⟨rfl, rfl, rfl⟩

/-- CLAIM C2 (code bug).  Decoding `0xd9 0xd9 0xf6 0xf4` — tag 55798 over
`false` — does not produce a generic Tagged Value: `decodeWithTag` has no
fallback arm and its `default` case throws `Error("TODO")`, contradicting
the repository's own test which expects a `TaggedValue` with tag 55798 and
item `false`.  The second conjunct shows `decodeWithTag` raises the same
error at tag 55798 for any fuel. -/
theorem unknown_tag_throws_todo :
    decodeBytes [0xd9, 0xd9, 0xf6, 0xf4] = Except.error DecErr.todo
    ∧ ∀ fuel, decodeWithTagD (fuel + 1) 55798 (Value.bool false) =
        Except.error DecErr.todo :=
  ⟨rfl, fun _ => rfl⟩

/-- CLAIM C7 (code bug).  Decoding tag 1 over the number 1363896240 (the
RFC test vector, reachable through the wide header `0xd8 0x01`) constructs
`new Date(1363896240)`, whose epoch timestamp is 1363896240 milliseconds —
not the 1363896240 × 1000 milliseconds an epoch-seconds interpretation
requires. -/
theorem tag1_date_uses_milliseconds :
    decodeBytes [0xd8, 0x01, 0x1a, 0x51, 0x4b, 0x67, 0xb0]
      = Except.ok (Value.dateFromNumberMs (Value.num 1363896240))
    ∧ dateEpochMs (Value.dateFromNumberMs (Value.num 1363896240)) = some 1363896240
    ∧ (1363896240 : Int) ≠ 1363896240 * 1000 :=
  ⟨rfl, rfl, by decide⟩

/-- CLAIM C1 (code bug).  `encode (decode bytes) = bytes` fails on the
canonical encoding of a 24-byte byte string: decoding `0x58 0x18` plus 24
payload bytes yields that byte string, but re-encoding it emits header
`0x3b` (the 64-bit negative-integer header) instead of `0x58`, so the
round-trip produces a different buffer. -/
theorem roundtrip_fails_on_long_bytestring :
    decodeBytes (0x58 :: 0x18 :: List.replicate 24 0xab)
      = Except.ok (Value.bytes (List.replicate 24 0xab))
    ∧ encode (Value.bytes (List.replicate 24 0xab))
      = Except.ok (0x3b :: 0x18 :: List.replicate 24 0xab)
    ∧ (0x3b :: 0x18 :: List.replicate 24 0xab : List Nat)
      ≠ 0x58 :: 0x18 :: List.replicate 24 0xab := by
  refine ⟨rfl, ?_, by decide⟩
  have h : encode (Value.bytes (List.replicate 24 0xab))
      = encodeByteString (List.replicate 24 0xab) := by
    simp [encode]
  rw [h]
  rfl

/-- CLAIM C6 (code bug).  For every byte string whose length lies in
`[24, 255]`, `encodeByteString` picks the 8-bit length tier but writes the
header byte `0x3b` — the 64-bit negative-integer header — rather than the
byte-string header `0x58` the wire format prescribes. -/
theorem bytestring_8bit_tier_wrong_header (bs : List Nat)
    (h1 : 0x18 ≤ bs.length) (h2 : bs.length ≤ 0xff) :
    encodeByteString bs = Except.ok (0x3b :: bs.length :: bs)
    ∧ (0x3b : Nat) ≠ 0x58 := by
  refine ⟨?_, by decide⟩
  simp only [encodeByteString, MAX_U8]
  rw [if_neg (by omega), if_pos (by omega)]

/-- Witness for C6 at a 30-byte byte string. -/
theorem bytestring_8bit_tier_wrong_header_witness :
    0x18 ≤ (List.replicate 30 (7 : Nat)).length
    ∧ (List.replicate 30 (7 : Nat)).length ≤ 0xff
    ∧ encodeByteString (List.replicate 30 7)
        = Except.ok (0x3b :: (List.replicate 30 (7 : Nat)).length :: List.replicate 30 7) :=
  ⟨by decide, by decide,
    (bytestring_8bit_tier_wrong_header (List.replicate 30 7) (by decide) (by decide)).1⟩

/-- The header bytes the decoder rejects with an error naming the byte
(`0xe0`–`0xf3` and `0xf8`). -/
def simpleValueHeaders : List Nat :=
  [0xe0, 0xe1, 0xe2, 0xe3, 0xe4, 0xe5, 0xe6, 0xe7, 0xe8, 0xe9, 0xea, 0xeb,
   0xec, 0xed, 0xee, 0xef, 0xf0, 0xf1, 0xf2, 0xf3, 0xf8]

/-- The unimplemented or reserved header bytes the decoder's jump table
does not list: the switch falls through and returns
`Symbol("NOT_IMPLEMENTED")` instead of raising. -/
def silentHeaders : List Nat :=
  [0x1c, 0x1d, 0x1e, 0x1f, 0x3c, 0x3d, 0x3e, 0x3f, 0x5c, 0x5d, 0x5e,
   0x7c, 0x7d, 0x7e, 0x9c, 0x9d, 0x9e, 0xbc, 0xbd, 0xbe,
   0xc1, 0xc4, 0xc5, 0xd5, 0xd6, 0xd7, 0xdc, 0xdd, 0xde, 0xdf,
   0xfc, 0xfd, 0xfe]

/-- CLAIM C3, counterexample.  Decoding a buffer whose first header byte is
the reserved `0x1c` does not raise: the decoder silently returns the
`NOT_IMPLEMENTED` sentinel value. -/
theorem reserved_header_returns_sentinel :
    decodeBytes [0x1c] = Except.ok Value.notImplemented := rfl

/-- CLAIM C3, amended.  Only the simple-value headers `0xe0`–`0xf3` and
`0xf8` raise a decode error naming the header byte; every other
unimplemented or reserved header (`0x1c`–`0x1f`, `0x5c`–`0x5e`, `0xc1`,
`0xc4`, `0xc5`, and the rest of `silentHeaders`) silently returns the
`NOT_IMPLEMENTED` sentinel, whatever bytes follow. -/
theorem unimplemented_header_behavior (h : Nat) (rest : List Nat) :
    (h ∈ simpleValueHeaders →
      decodeBytes (h :: rest) = Except.error (DecErr.simpleValue h))
    ∧ (h ∈ silentHeaders →
      decodeBytes (h :: rest) = Except.ok Value.notImplemented) := by
  constructor <;> intro hmem <;> fin_cases hmem <;> rfl

/-- Witness for C3's amended theorem at headers `0xf8` and `0x5c`. -/
theorem unimplemented_header_behavior_witness :
    ((0xf8 : Nat) ∈ simpleValueHeaders
      ∧ decodeBytes [0xf8] = Except.error (DecErr.simpleValue 0xf8))
    ∧ ((0x5c : Nat) ∈ silentHeaders
      ∧ decodeBytes [0x5c] = Except.ok Value.notImplemented) :=
  ⟨⟨by decide, (unimplemented_header_behavior 0xf8 []).1 (by decide)⟩,
   ⟨by decide, (unimplemented_header_behavior 0x5c []).2 (by decide)⟩⟩

/-- CLAIM C4, counterexample.  The inline tag-4 header `0xc4` is absent
from the decoder's jump table: decoding `0xc4 0x00` returns the
`NOT_IMPLEMENTED` sentinel instead of failing with the "not supported"
error. -/
theorem inline_tag4_returns_sentinel :
    decodeBytes [0xc4, 0x00] = Except.ok Value.notImplemented
    ∧ decodeBytes [0xc5, 0x00] = Except.ok Value.notImplemented :=
  ⟨rfl, rfl⟩

/-- CLAIM C4, amended.  `decodeWithTag` rejects tags 4 and 5 with the typed
"not supported" errors, and through every wide tag-header form
(`0xd8`/`0xd9`/`0xda`/`0xdb`) a tag-4 or tag-5 item whose inner item
decodes successfully fails with that error; the inline headers `0xc4` and
`0xc5` never reach the dispatcher. -/
theorem tag45_wide_not_supported :
    (∀ fuel it, decodeWithTagD (fuel + 1) 4 it = Except.error DecErr.decimalFractions
      ∧ decodeWithTagD (fuel + 1) 5 it = Except.error DecErr.bigfloats)
    ∧ (∀ fuel rest it off,
        itemD fuel (0xd8 :: 0x04 :: rest) 2 = Except.ok (it, off) →
        itemD (fuel + 1) (0xd8 :: 0x04 :: rest) 0 = Except.error DecErr.decimalFractions)
    ∧ (∀ fuel rest it off,
        itemD fuel (0xd8 :: 0x05 :: rest) 2 = Except.ok (it, off) →
        itemD (fuel + 1) (0xd8 :: 0x05 :: rest) 0 = Except.error DecErr.bigfloats)
    ∧ (∀ fuel rest it off,
        itemD fuel (0xd9 :: 0x00 :: 0x04 :: rest) 3 = Except.ok (it, off) →
        itemD (fuel + 1) (0xd9 :: 0x00 :: 0x04 :: rest) 0 = Except.error DecErr.decimalFractions)
    ∧ (∀ fuel rest it off,
        itemD fuel (0xda :: 0x00 :: 0x00 :: 0x00 :: 0x04 :: rest) 5 = Except.ok (it, off) →
        itemD (fuel + 1) (0xda :: 0x00 :: 0x00 :: 0x00 :: 0x04 :: rest) 0
          = Except.error DecErr.decimalFractions)
    ∧ (∀ fuel rest it off,
        itemD fuel
          (0xdb :: 0x00 :: 0x00 :: 0x00 :: 0x00 :: 0x00 :: 0x00 :: 0x00 :: 0x04 :: rest) 9
          = Except.ok (it, off) →
        itemD (fuel + 1)
          (0xdb :: 0x00 :: 0x00 :: 0x00 :: 0x00 :: 0x00 :: 0x00 :: 0x00 :: 0x04 :: rest) 0
          = Except.error DecErr.decimalFractions) := by
  refine ⟨fun fuel it => ⟨decodeWithTagD_tag4 fuel it, decodeWithTagD_tag5 fuel it⟩,
    ?_, ?_, ?_, ?_, ?_⟩
  all_goals
    intro fuel rest it off hit
    match fuel, hit with
    | fuel + 1, hit =>
      first
      | (rw [itemD_d8, hit]
         simp only [Except.bind]
         first
         | rw [decodeWithTagD_tag4]
         | rw [decodeWithTagD_tag5])
      | (rw [itemD_d9, hit]
         simp only [Except.bind]
         norm_num
         rw [decodeWithTagD_tag4])
      | (rw [itemD_da, hit]
         simp only [Except.bind]
         norm_num
         rw [decodeWithTagD_tag4])
      | (rw [itemD_db, hit]
         simp only [Except.bind]
         norm_num
         rw [decodeWithTagD_tag4])

/-- Witness for C4's amended theorem: tag 4 via `0xd8` over the integer 0
fails with the decimal-fraction error. -/
theorem tag45_wide_not_supported_witness :
    itemD 1 [0xd8, 0x04, 0x00] 2 = Except.ok (Value.num 0, 3)
    ∧ itemD 2 [0xd8, 0x04, 0x00] 0 = Except.error DecErr.decimalFractions :=
  ⟨rfl, tag45_wide_not_supported.2.1 1 [0x00] (Value.num 0) 3 rfl⟩

/-- CLAIM C5, counterexample.  A definite-length byte string declaring five
payload bytes over a buffer holding only two decodes without any error to a
two-byte value. -/
theorem truncated_bytestring_succeeds :
    decodeBytes [0x58, 0x05, 0x01, 0x02] = Except.ok (Value.bytes [0x01, 0x02]) := rfl

/-- CLAIM C5, amended.  When a definite-length byte-string or text-string
header declares more payload bytes than remain in the buffer — in any of
the length tiers: inline, 8-, 16-, 32- or 64-bit — `take` clamps the
`subarray` to the remaining bytes and no error is raised for the
truncation itself: a byte string decodes to exactly the remaining bytes,
and a text string decodes to the fatal UTF-8 decoding of the remaining
bytes (succeeding on valid UTF-8, failing only with the UTF-8 error
otherwise; in the 64-bit text tier below the `2^53 - 1` length cap, above
which the maximum-string-length `RangeError` fires first).  A buffer too
short to hold the length field itself, by contrast, raises the `DataView`
range error. -/
theorem truncated_string_payload_behavior :
    (∀ h rest, 0x41 ≤ h → h ≤ 0x57 → rest.length < h - 0x40 →
      decodeBytes (h :: rest) = Except.ok (Value.bytes rest))
    ∧ (∀ n rest, rest.length < n →
      decodeBytes (0x58 :: n :: rest) = Except.ok (Value.bytes rest))
    ∧ (∀ a b rest, rest.length < a * 256 + b →
      decodeBytes (0x59 :: a :: b :: rest) = Except.ok (Value.bytes rest))
    ∧ (∀ a b c d rest, rest.length < ((a * 256 + b) * 256 + c) * 256 + d →
      decodeBytes (0x5a :: a :: b :: c :: d :: rest) = Except.ok (Value.bytes rest))
    ∧ (∀ a b c d e f g k rest,
      rest.length <
        (((((((a * 256 + b) * 256 + c) * 256 + d) * 256 + e) * 256 + f)
          * 256 + g) * 256 + k) →
      decodeBytes (0x5b :: a :: b :: c :: d :: e :: f :: g :: k :: rest)
        = Except.ok (Value.bytes rest))
    ∧ (∀ h rest, 0x61 ≤ h → h ≤ 0x77 → rest.length < h - 0x60 →
      decodeBytes (h :: rest) = textDecode rest)
    ∧ (∀ n rest, rest.length < n →
      decodeBytes (0x78 :: n :: rest) = textDecode rest)
    ∧ (∀ a b rest, rest.length < a * 256 + b →
      decodeBytes (0x79 :: a :: b :: rest) = textDecode rest)
    ∧ (∀ a b c d rest, rest.length < ((a * 256 + b) * 256 + c) * 256 + d →
      decodeBytes (0x7a :: a :: b :: c :: d :: rest) = textDecode rest)
    ∧ (∀ a b c d e f g k rest,
      (((((((a * 256 + b) * 256 + c) * 256 + d) * 256 + e) * 256 + f)
        * 256 + g) * 256 + k) ≤ MAX_SAFE_INTEGER →
      rest.length <
        (((((((a * 256 + b) * 256 + c) * 256 + d) * 256 + e) * 256 + f)
          * 256 + g) * 256 + k) →
      decodeBytes (0x7b :: a :: b :: c :: d :: e :: f :: g :: k :: rest)
        = textDecode rest)
    ∧ (∀ rest, rest.length < 1 →
      decodeBytes (0x58 :: rest) = Except.error DecErr.oob
      ∧ decodeBytes (0x78 :: rest) = Except.error DecErr.oob)
    ∧ (∀ rest, rest.length < 2 →
      decodeBytes (0x59 :: rest) = Except.error DecErr.oob
      ∧ decodeBytes (0x79 :: rest) = Except.error DecErr.oob)
    ∧ (∀ rest, rest.length < 4 →
      decodeBytes (0x5a :: rest) = Except.error DecErr.oob
      ∧ decodeBytes (0x7a :: rest) = Except.error DecErr.oob)
    ∧ (∀ rest, rest.length < 8 →
      decodeBytes (0x5b :: rest) = Except.error DecErr.oob
      ∧ decodeBytes (0x7b :: rest) = Except.error DecErr.oob) := by
  refine ⟨?_, ?_, ?_, ?_, ?_, ?_, ?_, ?_, ?_, ?_, ?_, ?_, ?_, ?_⟩
  · intro h rest h1 h2 h3
    have hr : decodeBytes (h :: rest)
        = Except.ok (Value.bytes (rest.take (h - 0x40))) := by
      interval_cases h <;> rfl
    rw [hr, List.take_of_length_le (le_of_lt h3)]
  · intro n rest hlen
    have hr : decodeBytes (0x58 :: n :: rest)
        = Except.ok (Value.bytes (rest.take n)) := rfl
    rw [hr, List.take_of_length_le (le_of_lt hlen)]
  · intro a b rest hlen
    have hr : decodeBytes (0x59 :: a :: b :: rest)
        = Except.ok (Value.bytes (rest.take (a * 256 + b))) := rfl
    rw [hr, List.take_of_length_le (le_of_lt hlen)]
  · intro a b c d rest hlen
    have hr : decodeBytes (0x5a :: a :: b :: c :: d :: rest)
        = Except.ok (Value.bytes (rest.take (((a * 256 + b) * 256 + c) * 256 + d))) := rfl
    rw [hr, List.take_of_length_le (le_of_lt hlen)]
  · intro a b c d e f g k rest hlen
    have hr : decodeBytes (0x5b :: a :: b :: c :: d :: e :: f :: g :: k :: rest)
        = Except.ok (Value.bytes (rest.take
            (((((((a * 256 + b) * 256 + c) * 256 + d) * 256 + e) * 256 + f)
              * 256 + g) * 256 + k))) := rfl
    rw [hr, List.take_of_length_le (le_of_lt hlen)]
  · intro h rest h1 h2 h3
    rw [decodeBytes_textInline_raw h rest h1 h2,
      List.take_of_length_le (le_of_lt h3)]
    by_cases hv : validUtf8 rest <;> simp [textDecode, hv, Except.bind]
  · intro n rest hlen
    rw [decodeBytes_text8_raw, List.take_of_length_le (le_of_lt hlen)]
    by_cases hv : validUtf8 rest <;> simp [textDecode, hv, Except.bind]
  · intro a b rest hlen
    rw [decodeBytes_text16_raw, List.take_of_length_le (le_of_lt hlen)]
    by_cases hv : validUtf8 rest <;> simp [textDecode, hv, Except.bind]
  · intro a b c d rest hlen
    rw [decodeBytes_text32_raw, List.take_of_length_le (le_of_lt hlen)]
    by_cases hv : validUtf8 rest <;> simp [textDecode, hv, Except.bind]
  · intro a b c d e f g k rest hcap hlen
    rw [decodeBytes_text64_raw, if_neg (not_lt.2 hcap),
      List.take_of_length_le (le_of_lt hlen)]
    by_cases hv : validUtf8 rest <;> simp [textDecode, hv, Except.bind]
  · intro rest hlen
    rcases rest with _ | ⟨a, t⟩
    · exact ⟨rfl, rfl⟩
    · exact absurd hlen (by simp only [List.length_cons]; omega)
  · intro rest hlen
    rcases rest with _ | ⟨a, _ | ⟨b, t⟩⟩
    all_goals first
      | exact ⟨rfl, rfl⟩
      | exact absurd hlen (by simp only [List.length_cons]; omega)
  · intro rest hlen
    rcases rest with _ | ⟨a, _ | ⟨b, _ | ⟨c, _ | ⟨d, t⟩⟩⟩⟩
    all_goals first
      | exact ⟨rfl, rfl⟩
      | exact absurd hlen (by simp only [List.length_cons]; omega)
  · intro rest hlen
    rcases rest with _ | ⟨a, _ | ⟨b, _ | ⟨c, _ | ⟨d, _ | ⟨e, _ | ⟨f, _ | ⟨g, _ | ⟨i, t⟩⟩⟩⟩⟩⟩⟩⟩
    all_goals first
      | exact ⟨rfl, rfl⟩
      | exact absurd hlen (by simp only [List.length_cons]; omega)

/-- Witness for C5's amended theorem: the 16-bit byte-string tier clamping
seven declared bytes to two, the 8-bit text tier clamping nine declared
bytes to the valid UTF-8 payload "ab", and a 16-bit length field with only
one byte remaining raising the range error. -/
theorem truncated_string_payload_behavior_witness :
    ([(0x03 : Nat), 0x04].length < 0 * 256 + 7
      ∧ decodeBytes [0x59, 0x00, 0x07, 0x03, 0x04] = Except.ok (Value.bytes [0x03, 0x04]))
    ∧ ([(0x61 : Nat), 0x62].length < 9
      ∧ decodeBytes [0x78, 0x09, 0x61, 0x62] = textDecode [0x61, 0x62]
      ∧ textDecode [0x61, 0x62] = Except.ok (Value.str [0x61, 0x62]))
    ∧ ([(0x07 : Nat)].length < 2
      ∧ decodeBytes [0x59, 0x07] = Except.error DecErr.oob) := by
  obtain ⟨c1, c2, c3, c4, c5, c6, c7, c8, c9, c10, c11, c12, c13, c14⟩ :=
    truncated_string_payload_behavior
  exact ⟨⟨by decide, c3 0 7 [0x03, 0x04] (by decide)⟩,
    ⟨by decide, c7 9 [0x61, 0x62] (by decide), rfl⟩,
    ⟨by decide, (c12 [0x07] (by decide)).1⟩⟩

/-- CLAIM C8, counterexample.  The integer-valued number `-(2^53)`, whose
magnitude exceeds `2^53 - 1`, is not re-routed to float encoding: it is
encoded with the 64-bit negative-integer header `0x3b`, not a major-type-7
float header. -/
theorem negative_large_int_not_float :
    encode (Value.num (-9007199254740992))
      = Except.ok [0x3b, 0, 31, 255, 255, 255, 255, 255, 255]
    ∧ ((0x3b : Nat) = 0xfa ∨ (0x3b : Nat) = 0xfb → False) := by
  refine ⟨?_, by decide⟩
  have h : encode (Value.num (-9007199254740992))
      = encodeNumber (-9007199254740992) := by simp [encode]
  rw [h]
  rfl

/-- The first byte of an encoder result. -/
def headByte (r : Except EncErr (List Nat)) : Option Nat :=
  match r with
  | .ok (b :: _) => some b
  | _ => none

/-- CLAIM C8, amended.  An integer above `Number.MAX_SAFE_INTEGER` is
re-routed to float encoding (header `0xfa` or `0xfb`); a negative integer
of magnitude above `2^53 - 1` (and within the double range) is not: it is
encoded with the 64-bit negative-integer header `0x3b` or, beyond 64 bits,
the tag-3 bignum header `0xc3`. -/
theorem integer_overflow_routing (n : Int) :
    (((MAX_SAFE_INTEGER : Nat) : Int) < n →
      encodeInteger n = Except.ok (encodeFloat n)
      ∧ ((encodeFloat n).head? = some 0xfa ∨ (encodeFloat n).head? = some 0xfb))
    ∧ (n < -((MAX_SAFE_INTEGER : Nat) : Int) → -(2 ^ 1024) < n →
      ∃ out, encodeInteger n = Except.ok out
        ∧ (out.head? = some 0x3b ∨ out.head? = some 0xc3)) := by
  constructor
  · intro hn
    constructor
    · simp only [encodeInteger, if_pos hn]
    · by_cases hf : froundExactInt n = true
      · left
        simp [encodeFloat, hf]
      · right
        simp [encodeFloat, hf]
  · intro hn hb
    have hms : (MAX_SAFE_INTEGER : Int) = 9007199254740991 := by
      norm_num [MAX_SAFE_INTEGER]
    have hneg : n < 0 := by omega
    have hm : (9007199254740991 : Int) ≤ -n - 1 := by omega
    have hmn : (9007199254740991 : Nat) ≤ (-n - 1).toNat := by omega
    rw [encodeInteger, if_neg (by omega), if_neg (by omega),
      encodeNegativeInteger, if_neg (by omega)]
    simp only [MAX_U8, MAX_U16, MAX_U32]
    rw [if_neg (by omega), if_neg (by omega), if_neg (by omega), if_neg (by omega),
      encodeNegativeBigInt, if_neg (by omega)]
    by_cases h64 : -n - 1 ≤ (MAX_U64 : Int)
    · rw [if_pos h64]
      exact ⟨_, rfl, Or.inl rfl⟩
    · rw [if_neg h64]
      have hnn : ¬ (-n - 1 < (0 : Int)) := by omega
      have hcap : (-n - 1).toNat < 256 ^ 128 := by
        have h1 : -n - 1 < 2 ^ 1024 := by omega
        have h2 : (256 : Nat) ^ 128 = 2 ^ 1024 := by norm_num [← pow_mul]
        omega
      have hlen : (beBytes (ilog256 (-n - 1).toNat) (-n - 1).toNat).length ≤ 128 := by
        rw [beBytes_length]
        exact ilog256_le_of_lt hcap
      have hub : unsignedBigIntToBytes (-n - 1)
          = Except.ok (beBytes (ilog256 (-n - 1).toNat) (-n - 1).toNat) := by
        simp only [unsignedBigIntToBytes, if_neg hnn]
      obtain ⟨e, he⟩ :
          ∃ e, encodeByteString (beBytes (ilog256 (-n - 1).toNat) (-n - 1).toNat)
            = Except.ok e := by
        by_cases hsmall :
            (beBytes (ilog256 (-n - 1).toNat) (-n - 1).toNat).length ≤ 0x17
        · refine ⟨((beBytes (ilog256 (-n - 1).toNat) (-n - 1).toNat).length + 0x40)
            :: beBytes (ilog256 (-n - 1).toNat) (-n - 1).toNat, ?_⟩
          simp only [encodeByteString]
          rw [if_pos hsmall]
        · refine ⟨0x3b :: (beBytes (ilog256 (-n - 1).toNat) (-n - 1).toNat).length
            :: beBytes (ilog256 (-n - 1).toNat) (-n - 1).toNat, ?_⟩
          simp only [encodeByteString, MAX_U8]
          rw [if_neg hsmall, if_pos (by omega)]
      refine ⟨0xc3 :: e, ?_, Or.inr rfl⟩
      simp only [hub, he, Bind.bind, Except.bind]

/-- Witness for C8's amended theorem at `2^53` (positive, float-routed) and
`-(2^53) - 1` (negative, integer-encoded). -/
theorem integer_overflow_routing_witness :
    (((MAX_SAFE_INTEGER : Nat) : Int) < 9007199254740992
      ∧ encodeInteger 9007199254740992 = Except.ok (encodeFloat 9007199254740992))
    ∧ ((-9007199254740993 : Int) < -((MAX_SAFE_INTEGER : Nat) : Int)
      ∧ (-(2 ^ 1024) : Int) < -9007199254740993
      ∧ ∃ out, encodeInteger (-9007199254740993) = Except.ok out
          ∧ (out.head? = some 0x3b ∨ out.head? = some 0xc3)) := by
  have hpos : ((MAX_SAFE_INTEGER : Nat) : Int) < 9007199254740992 := by
    norm_num [MAX_SAFE_INTEGER]
  have hneg : (-9007199254740993 : Int) < -((MAX_SAFE_INTEGER : Nat) : Int) := by
    norm_num [MAX_SAFE_INTEGER]
  have hcap : (-(2 ^ 1024) : Int) < -9007199254740993 := by norm_num
  exact ⟨⟨hpos, (integer_overflow_routing 9007199254740992).1 hpos |>.1⟩,
    hneg, hcap, (integer_overflow_routing (-9007199254740993)).2 hneg hcap⟩

end CborJs
